import Mathlib

/-!
Verification of the `lightweight-mmap` library: a shallow embedding of its
file-handle and memory-mapping core, together with theorems settling the
specification claims.

Conventions of the embedding:

* Machine integers are modelled as `Nat` (unsigned) or `Int` (signed).
  Rust `u64` bit-complement `!x` is modelled by `not64 x = 2^64 - 1 - x`,
  which agrees with the machine operation for `x < 2^64`; theorems carry
  `offset < 2^64` style hypotheses where this matters.  Additions on `usize`
  are modelled exactly (checked-arithmetic semantics: a Rust debug build
  panics on overflow rather than producing a wrapped value).
* Native system calls are not reimplemented.  Their outcomes are supplied by
  oracle records (`MmapOs`, `FileOs`, `WinOs`), and the calls a function
  issues are recorded in an ordered `List Event` trace, so that claims about
  which syscalls happen (and in which order) become statements about traces.
* File contents are modelled as `List Nat` (one entry per byte).
* `Drop` implementations are modelled as functions returning the trace of
  native release calls they perform; Rust drops struct fields in declaration
  order, which the drop models follow.
-/

deriving instance DecidableEq for Except

/-- Bitwise complement on 64-bit values: `!x` for a `u64` `x < 2^64`. -/
def not64 (x : Nat) : Nat := 2 ^ 64 - 1 - x

/-- The page-aligned mapping base computed by `create_mmap`:
`offset & !(page_size as u64 - 1)` from `src/mmap/unix_common.rs` and
`src/mmap/windows_common.rs`. -/
def aligned_offset (offset g : Nat) : Nat := offset &&& not64 (g - 1)

/-- The gap between the requested offset and the aligned base:
`offset - aligned_offset`. -/
def offset_adjustment (offset g : Nat) : Nat := offset - aligned_offset offset g

theorem not64_two_pow_sub_one {k : Nat} (hk : k ≤ 64) :
    not64 (2 ^ k - 1) = 2 ^ 64 - 2 ^ k := by
  have h : 2 ^ k ≤ 2 ^ 64 := Nat.pow_le_pow_right (by norm_num) hk
  have h1 : 1 ≤ 2 ^ k := Nat.one_le_two_pow
  unfold not64
  omega

theorem land_high_mask {x k w : Nat} (hx : x < 2 ^ w) (hk : k ≤ w) :
    x &&& (2 ^ w - 2 ^ k) = 2 ^ k * (x / 2 ^ k) := by
  have hmask : 2 ^ w - 2 ^ k = (2 ^ (w - k) - 1) <<< k := by
    rw [Nat.shiftLeft_eq, Nat.sub_mul, Nat.one_mul, ← Nat.pow_add]
    congr 2
    omega
  have hrhs : 2 ^ k * (x / 2 ^ k) = (x >>> k) <<< k := by
    rw [Nat.shiftRight_eq_div_pow, Nat.shiftLeft_eq, Nat.mul_comm]
  rw [hmask, hrhs]
  apply Nat.eq_of_testBit_eq
  intro i
  rw [Nat.testBit_and, Nat.testBit_shiftLeft, Nat.testBit_shiftLeft,
    Nat.testBit_shiftRight, Nat.testBit_two_pow_sub_one]
  by_cases hik : k ≤ i
  · have hsum : k + (i - k) = i := by omega
    rw [hsum]
    by_cases hiw : i < w
    · have : i - k < w - k := by omega
      simp [hik, this]
    · have hxle : x < 2 ^ i :=
        lt_of_lt_of_le hx (Nat.pow_le_pow_right (by norm_num) (by omega))
      have : ¬ (i - k < w - k) := by omega
      simp [Nat.testBit_lt_two_pow hxle, this]
  · simp [hik]

theorem aligned_offset_eq_div_mul {offset k : Nat}
    (hoff : offset < 2 ^ 64) (hk : k ≤ 64) :
    aligned_offset offset (2 ^ k) = 2 ^ k * (offset / 2 ^ k) := by
  unfold aligned_offset
  rw [not64_two_pow_sub_one hk]
  exact land_high_mask hoff hk

theorem offset_adjustment_eq_mod {offset k : Nat}
    (hoff : offset < 2 ^ 64) (hk : k ≤ 64) :
    offset_adjustment offset (2 ^ k) = offset % 2 ^ k := by
  unfold offset_adjustment
  rw [aligned_offset_eq_div_mul hoff hk]
  have h := Nat.div_add_mod offset (2 ^ k)
  omega

/-- Errors raised while opening or resizing a file handle
(`src/handles/error.rs`); each carries the native error code. -/
inductive HandleOpenError
  | FailedToConvertPath (code : Int)
  | FailedToOpenFileHandle (code : Int)
  | FailedToGetFileSize (code : Int)
  | FailedToSetFileSize (code : Int)
  | FailedToCreateFileMapping (code : Int)
deriving DecidableEq, Repr

/-- Errors raised while creating a memory mapping (`src/mmap/error.rs`).
`FailedToGetFileSize` carries no code, matching the source enum. -/
inductive MmapError
  | FailedToMapMemory (code : Int)
  | MappingFailed (message : String)
  | FailedToGetFileSize
deriving DecidableEq, Repr

/-- The madvise hint constants used by the Unix backend. -/
inductive Madv
  | willneed
  | sequential
  | random
deriving DecidableEq, Repr

/-- Native calls recorded by the embedding, in program order. -/
inductive Event
  | mmapCall (fd : Int) (aligned adjusted_len protection : Nat)
  | munmapCall (ptr len : Nat)
  | madviseCall (addr len : Nat) (advice : Madv)
  | openCall (fd : Int)
  | closeCall (fd : Int)
  | fstatCall (fd : Int)
  | fallocateCall (fd : Int) (size : Int)
  | ftruncateCall (fd : Int) (size : Int)
  | createFileMappingWCall (sizeHigh sizeLow : Nat)
  | mapViewOfFileCall (aligned adjusted_len : Nat)
  | closeHandleCall (h : Int)
  | prefetchVirtualMemoryCall (addr len : Nat)
deriving DecidableEq, Repr

/-- The process-wide granularity cache `SYSTEM_ALLOCATION_GRANULARITY`
(`src/util/mod.rs`): an atomic `u32`, `0` meaning unqueried. -/
structure GranCache where
  value : Nat
deriving DecidableEq, Repr

/-- The lazy cached granularity query (`src/util/mod.rs`).  `pageSize` is the
value the native query (`sysconf` / `GetSystemInfo`) would return.  The `Bool`
component records whether the native query was issued by this call. -/
def get_allocation_granularity (pageSize : Nat) (s : GranCache) :
    Nat × Bool × GranCache :=
  if s.value ≠ 0 then (s.value, false, s)
  else (pageSize, true, ⟨pageSize⟩)

/-- The cache invariant: unqueried, or holding exactly the native value. -/
def GranCache.Inv (pageSize : Nat) (s : GranCache) : Prop :=
  s.value = 0 ∨ s.value = pageSize

/-- The tail of a racing first-time caller: having loaded `observed` from the
cache earlier (possibly a stale `0`), it either returns the observed value or
queries and stores `pageSize` (`src/util/mod.rs`, relaxed-atomics race). -/
def racer_finish (pageSize observed : Nat) (s : GranCache) : Nat × GranCache :=
  if observed ≠ 0 then (observed, s) else (pageSize, ⟨pageSize⟩)

/-- Oracle for the Unix mapping backend: the cached allocation granularity
returned by `get_allocation_granularity`, the outcome of the `mmap` syscall
keyed on its (aligned offset, adjusted length) arguments (`some base` on
success, `none` for `MAP_FAILED`), and the `errno` observed on failure. -/
structure MmapOs where
  granularity : Nat
  mmapResult : Nat → Nat → Option Nat
  errno : Int

/-- The address `NonNull::dangling().as_ptr()` used by the zero-length case of
the Unix `create_mmap`: non-null, equal to the alignment of `c_void` (1). -/
def danglingPtr : Nat := 1

/-- The null pointer. -/
def nullPtr : Nat := 0

/-- PROT_READ. -/
def PROT_READ : Nat := 1

/-- PROT_WRITE. -/
def PROT_WRITE : Nat := 2

/-- Embedding of `create_mmap` (`src/mmap/unix_common.rs`).  Returns the
triple `(ptr, offset_adjustment, adjusted_len)` produced by the source
function together with the trace of native calls issued. -/
def mmap_unix_common.create_mmap (os : MmapOs) (fd : Int)
    (offset len protection : Nat) :
    Except MmapError (Nat × Nat × Nat) × List Event :=
  if len = 0 then (Except.ok (danglingPtr, 0, 0), [])
  else
    let page_size := os.granularity
    let aligned := aligned_offset offset page_size
    let adjustment := offset_adjustment offset page_size
    let adjusted_len := len + adjustment
    match os.mmapResult aligned adjusted_len with
    | none =>
        (Except.error (MmapError.FailedToMapMemory os.errno),
         [Event.mmapCall fd aligned adjusted_len protection])
    | some ptr =>
        (Except.ok (ptr, adjustment, adjusted_len),
         [Event.mmapCall fd aligned adjusted_len protection])

/-- Embedding of `advise_memory` (`src/mmap/unix_common.rs`): one `madvise`
per set flag, results discarded.  `advice` is the `MemoryAdvice` bitset. -/
def mmap_unix_common.advise_memory (addr len advice : Nat) : List Event :=
  (if advice &&& 1 = 1 then [Event.madviseCall addr len Madv.willneed] else []) ++
  (if advice &&& 2 = 2 then [Event.madviseCall addr len Madv.sequential] else []) ++
  (if advice &&& 4 = 4 then [Event.madviseCall addr len Madv.random] else [])

/-- Embedding of the Windows `advise_memory` (`src/mmap/windows_common.rs`):
only `WILL_NEED` maps to a native call (`PrefetchVirtualMemory`). -/
def mmap_windows_common.advise_memory (addr len advice : Nat) : List Event :=
  if advice &&& 1 = 1 then [Event.prefetchVirtualMemoryCall addr len] else []

/-- The `ReadOnlyMmap` struct (`src/mmap/readonly/mod.rs`), with the Unix
inner flattened in: `ptr` is the native base pointer, `length` the stored
adjusted length. -/
structure ReadOnlyMmap where
  ptr : Nat
  offset_adjustment : Nat
  length : Nat
deriving DecidableEq, Repr

/-- Public data pointer: native base advanced by the offset adjustment. -/
def ReadOnlyMmap.data (m : ReadOnlyMmap) : Nat := m.ptr + m.offset_adjustment

/-- Public length: stored length minus the offset adjustment. -/
def ReadOnlyMmap.len (m : ReadOnlyMmap) : Nat := m.length - m.offset_adjustment

/-- Whether the mapping is empty. -/
def ReadOnlyMmap.is_empty (m : ReadOnlyMmap) : Bool := m.len == 0

/-- `ReadOnlyMmap::new` without the `trim-file-lengths` feature
(`src/mmap/readonly/mod.rs` composed with `src/mmap/readonly/unix.rs`). -/
def ReadOnlyMmap.new (os : MmapOs) (fd : Int) (offset len : Nat) :
    Except MmapError ReadOnlyMmap × List Event :=
  match mmap_unix_common.create_mmap os fd offset len PROT_READ with
  | (Except.ok (ptr, adjustment, length), tr) =>
      (Except.ok ⟨ptr, adjustment, length⟩, tr)
  | (Except.error e, tr) => (Except.error e, tr)

/-- `advise` on a read-only mapping (`src/mmap/readonly/mod.rs`): no-op when
empty, otherwise hints the full native region (base pointer, total stored
length). -/
def ReadOnlyMmap.advise (m : ReadOnlyMmap) (advice : Nat) : List Event :=
  if !m.is_empty then mmap_unix_common.advise_memory m.ptr m.length advice
  else []

/-- Drop of the Unix inner mapping (`src/mmap/readonly/unix.rs`): `munmap`
whenever the stored pointer is non-null. -/
def ReadOnlyMmap.drop (m : ReadOnlyMmap) : List Event :=
  if m.ptr ≠ nullPtr then [Event.munmapCall m.ptr m.length] else []

/-- The `ReadWriteMmap` struct (`src/mmap/readwrite/mod.rs`), flattened like
`ReadOnlyMmap`. -/
structure ReadWriteMmap where
  ptr : Nat
  offset_adjustment : Nat
  length : Nat
deriving DecidableEq, Repr

/-- Public data pointer of a read-write mapping. -/
def ReadWriteMmap.data (m : ReadWriteMmap) : Nat := m.ptr + m.offset_adjustment

/-- Public length of a read-write mapping. -/
def ReadWriteMmap.len (m : ReadWriteMmap) : Nat := m.length - m.offset_adjustment

/-- Whether the read-write mapping is empty. -/
def ReadWriteMmap.is_empty (m : ReadWriteMmap) : Bool := m.len == 0

/-- `ReadWriteMmap::new` without the `trim-file-lengths` feature
(`src/mmap/readwrite/mod.rs` composed with `src/mmap/readwrite/unix.rs`). -/
def ReadWriteMmap.new (os : MmapOs) (fd : Int) (offset len : Nat) :
    Except MmapError ReadWriteMmap × List Event :=
  match mmap_unix_common.create_mmap os fd offset len (PROT_READ ||| PROT_WRITE) with
  | (Except.ok (ptr, adjustment, length), tr) =>
      (Except.ok ⟨ptr, adjustment, length⟩, tr)
  | (Except.error e, tr) => (Except.error e, tr)

/-- Embedding of `adjust_len_to_file_size` (`src/mmap/mod.rs`), active under
the `trim-file-lengths` feature.  `file_size` is the result of the handle's
size query; the `i64` size is reinterpreted as `u64` by the source cast. -/
def adjust_len_to_file_size (file_size : Except HandleOpenError Int)
    (offset len : Nat) : Except MmapError Nat :=
  match file_size with
  | Except.error _ => Except.error MmapError.FailedToGetFileSize
  | Except.ok fs =>
      let fs64 := (fs % (2 ^ 64 : Int)).toNat
      if offset ≥ fs64 then Except.ok 0
      else Except.ok (min (fs64 - offset) len)

/-- `ReadOnlyMmap::new` with the `trim-file-lengths` feature enabled
(`src/mmap/readonly/mod.rs` line 47): the requested length is first clamped
by `adjust_len_to_file_size`. -/
def ReadOnlyMmap.new_trimmed (os : MmapOs) (file_size : Except HandleOpenError Int)
    (fd : Int) (offset len : Nat) :
    Except MmapError ReadOnlyMmap × List Event :=
  match adjust_len_to_file_size file_size offset len with
  | Except.error e => (Except.error e, [])
  | Except.ok len2 => ReadOnlyMmap.new os fd offset len2

/-- `ReadWriteMmap::new` with the `trim-file-lengths` feature enabled. -/
def ReadWriteMmap.new_trimmed (os : MmapOs) (file_size : Except HandleOpenError Int)
    (fd : Int) (offset len : Nat) :
    Except MmapError ReadWriteMmap × List Event :=
  match adjust_len_to_file_size file_size offset len with
  | Except.error e => (Except.error e, [])
  | Except.ok len2 => ReadWriteMmap.new os fd offset len2

/-- The Unix platform families distinguished by the `cfg` branches of
`set_file_size` (`src/lightweight-mmap/src/handles/unix_common.rs`). -/
inductive UnixPlatform
  | linux
  | freebsdDragonfly
  | otherUnix
deriving DecidableEq, Repr

/-- The state of the file named by the path under test: its bytes. -/
structure FsState where
  file : List Nat
deriving DecidableEq, Repr

/-- Oracle for the Unix file-handle backend: outcome of `open` (`.ok fd` or
`.error errno`), success flags and error codes for `fstat`, `fallocate` /
`posix_fallocate` and `ftruncate`, and the contents of bytes added by a
space-reserving grow (implementation-defined, hence an oracle). -/
structure FileOs where
  openResult : Except Int Int
  statOk : Bool
  statErrno : Int
  fallocOk : Bool
  fallocErrno : Int
  ftruncOk : Bool
  ftruncErrno : Int
  pad : Nat → Nat

/-- Embedding of `get_file_size` (`src/handles/unix_common.rs`): `fstat`
reporting the file's current length. -/
def handles_unix_common.get_file_size (os : FileOs) (fd : Int) (s : FsState) :
    Except HandleOpenError Int × List Event :=
  if os.statOk then (Except.ok (s.file.length : Int), [Event.fstatCall fd])
  else (Except.error (HandleOpenError.FailedToGetFileSize os.statErrno),
        [Event.fstatCall fd])

/-- The bytes of the file after a grow to `n` bytes: the old contents
followed by implementation-defined bytes from the oracle. -/
def grownFile (os : FileOs) (file : List Nat) (n : Nat) : List Nat :=
  file ++ (List.range (n - file.length)).map os.pad

/-- Embedding of `set_file_size`
(`src/lightweight-mmap/src/handles/unix_common.rs`): queries the current
size, then grows via the platform's space-reserving primitive (`fallocate` on
Linux, `posix_fallocate` on FreeBSD/DragonFly, plain `ftruncate` elsewhere)
or shrinks via `ftruncate`; equal sizes perform no size-changing call. -/
def handles_unix_common.set_file_size (p : UnixPlatform) (os : FileOs)
    (fd : Int) (size : Int) (s : FsState) :
    Except HandleOpenError Unit × FsState × List Event :=
  match handles_unix_common.get_file_size os fd s with
  | (Except.error e, tr) => (Except.error e, s, tr)
  | (Except.ok current, tr) =>
      if size > current then
        match p with
        | UnixPlatform.linux =>
            if os.fallocOk then
              (Except.ok (), ⟨grownFile os s.file size.toNat⟩,
               tr ++ [Event.fallocateCall fd size])
            else
              (Except.error (HandleOpenError.FailedToSetFileSize os.fallocErrno),
               s, tr ++ [Event.fallocateCall fd size])
        | UnixPlatform.freebsdDragonfly =>
            if os.fallocOk then
              (Except.ok (), ⟨grownFile os s.file size.toNat⟩,
               tr ++ [Event.fallocateCall fd size])
            else
              (Except.error (HandleOpenError.FailedToSetFileSize os.fallocErrno),
               s, tr ++ [Event.fallocateCall fd size])
        | UnixPlatform.otherUnix =>
            if os.ftruncOk then
              (Except.ok (), ⟨grownFile os s.file size.toNat⟩,
               tr ++ [Event.ftruncateCall fd size])
            else
              (Except.error (HandleOpenError.FailedToSetFileSize os.ftruncErrno),
               s, tr ++ [Event.ftruncateCall fd size])
      else if size < current then
        if os.ftruncOk then
          (Except.ok (), ⟨s.file.take size.toNat⟩,
           tr ++ [Event.ftruncateCall fd size])
        else
          (Except.error (HandleOpenError.FailedToSetFileSize os.ftruncErrno),
           s, tr ++ [Event.ftruncateCall fd size])
      else (Except.ok (), s, tr)

/-- Embedding of `InnerHandle::create_preallocated`
(`src/handles/readwrite/unix.rs`): open-or-create, then resize; on resize
failure the freshly opened descriptor is closed before the error returns.
The `Int` result is the descriptor owned by the returned handle. -/
def InnerHandle.create_preallocated (p : UnixPlatform) (os : FileOs)
    (size : Int) (s : FsState) :
    Except HandleOpenError Int × FsState × List Event :=
  match os.openResult with
  | Except.error code =>
      (Except.error (HandleOpenError.FailedToOpenFileHandle code), s, [])
  | Except.ok fd =>
      match handles_unix_common.set_file_size p os fd size s with
      | (Except.error e, s2, tr) =>
          (Except.error e, s2, Event.openCall fd :: tr ++ [Event.closeCall fd])
      | (Except.ok _, s2, tr) =>
          (Except.ok fd, s2, Event.openCall fd :: tr)

/-- Whether a handle error is the `FailedToSetFileSize` variant. -/
def HandleOpenError.isSetSizeError : HandleOpenError → Bool
  | HandleOpenError.FailedToSetFileSize _ => true
  | _ => false

/-- Drop of the Unix `InnerHandle` (both handle variants): `close(fd)`. -/
def InnerHandle.drop (fd : Int) : List Event := [Event.closeCall fd]

/-- Drop of an `Arc<ReadOnlyFileHandle>`: releases the inner handle exactly
when this owner is the last one (strong count 1), otherwise only decrements
the count. -/
def arcHandleDrop (strongCount : Nat) (fd : Int) : List Event :=
  if strongCount = 1 then InnerHandle.drop fd else []

/-- The `OwnedReadOnlyMmap` struct (`src/mmap/readonly/owned.rs`): field
`handle` (the `Arc`, here its descriptor plus the strong count at drop time)
declared before field `mmap`. -/
structure OwnedReadOnlyMmap where
  strongCount : Nat
  fd : Int
  mmap : ReadOnlyMmap
deriving DecidableEq, Repr

/-- Drop of `OwnedReadOnlyMmap`: Rust drops struct fields in declaration
order, so the `handle` field (the `Arc`) is dropped before the `mmap` field
(`src/mmap/readonly/owned.rs` declares `handle` first). -/
def OwnedReadOnlyMmap.drop (o : OwnedReadOnlyMmap) : List Event :=
  arcHandleDrop o.strongCount o.fd ++ o.mmap.drop

/-- Destruction of the borrowed pairing: the mapping borrows the handle, so
the borrow checker forces the mapping out of scope first; its drop runs
before the handle's. -/
def borrowedDropSequence (m : ReadOnlyMmap) (fd : Int) : List Event :=
  m.drop ++ InnerHandle.drop fd

/-- Oracle for the Windows mapping backend: granularity, outcome of
`CreateFileMappingW` (`some handle` or `none` for a null return), outcome of
`MapViewOfFile` keyed on (aligned offset, adjusted length), and the last
error code. -/
structure WinOs where
  granularity : Nat
  createMappingResult : Option Int
  mapViewResult : Nat → Nat → Option Nat
  lastError : Int

/-- INVALID_HANDLE_VALUE. -/
def INVALID_HANDLE_VALUE : Int := -1

/-- Embedding of `create_view` (`src/mmap/windows_common.rs`).  `mapping` is
the handle's cached mapping-object handle (`InnerHandle.mapping`), passed
in-out; the middle component of the result is its new value.  The mapping
object is created lazily when the cached value is `INVALID_HANDLE_VALUE`,
with max-size arguments `(0, 0)` (cover the whole file). -/
def mmap_windows_common.create_view (os : WinOs) (mapping : Int)
    (offset len : Nat) :
    Except MmapError (Nat × Nat × Nat) × Int × List Event :=
  if len = 0 then (Except.ok (nullPtr, 0, 0), mapping, [])
  else
    match
      (if mapping = INVALID_HANDLE_VALUE then
        match os.createMappingResult with
        | none => Except.error (MmapError.FailedToMapMemory os.lastError)
        | some m => Except.ok (m, [Event.createFileMappingWCall 0 0])
       else Except.ok (mapping, ([] : List Event))) with
    | Except.error e => (Except.error e, mapping, [Event.createFileMappingWCall 0 0])
    | Except.ok (m, tr0) =>
        let page_size := os.granularity
        let aligned := aligned_offset offset page_size
        let adjustment := offset_adjustment offset page_size
        let adjusted_len := len + adjustment
        match os.mapViewResult aligned adjusted_len with
        | none =>
            (Except.error (MmapError.FailedToMapMemory os.lastError), m,
             tr0 ++ [Event.mapViewOfFileCall aligned adjusted_len])
        | some ptr =>
            (Except.ok (ptr, adjustment, adjusted_len), m,
             tr0 ++ [Event.mapViewOfFileCall aligned adjusted_len])

/-- Drop of the Windows `InnerHandle` (`src/handles/readwrite/windows.rs`):
closes the cached mapping-object handle when one was created, then closes
the file handle. -/
def InnerHandle.drop_windows (mapping handle : Int) : List Event :=
  (if mapping ≠ INVALID_HANDLE_VALUE then [Event.closeHandleCall mapping] else []) ++
  (if handle ≠ INVALID_HANDLE_VALUE then [Event.closeHandleCall handle] else [])

/-- Whether a trace contains a `closeHandleCall` for the given handle. -/
def closesHandle (tr : List Event) (h : Int) : Bool :=
  tr.contains (Event.closeHandleCall h)

/-- A concrete Unix mapping oracle used by witnesses: granularity 4096,
every `mmap` call succeeding at base pointer 65536. -/
def osUnit : MmapOs := ⟨4096, fun _ _ => some 65536, 12⟩

theorem create_mmap_ok_adj_le {os : MmapOs} {fd : Int}
    {offset len protection ptr adj length : Nat} {tr : List Event}
    (h : mmap_unix_common.create_mmap os fd offset len protection
        = (Except.ok (ptr, adj, length), tr)) :
    adj ≤ length := by
  unfold mmap_unix_common.create_mmap at h
  by_cases hl : len = 0
  · simp [hl, Prod.ext_iff] at h
    omega
  · simp only [hl, if_false] at h
    cases hm : os.mmapResult (aligned_offset offset os.granularity)
        (len + offset_adjustment offset os.granularity) with
    | none => simp [hm] at h
    | some p =>
        simp [hm] at h
        omega

/-- C8: the allocation-granularity cache is either 0 (unqueried) or the
native query's value; a call with a warm cache returns it without querying,
a cold call queries, stores and returns it; racing first-time callers all
compute and store the same value, and every call returns that same nonzero
granularity. -/
theorem granularity_cache_correct (pageSize : Nat) (s : GranCache)
    (hp : pageSize ≠ 0) :
    (GranCache.Inv pageSize s →
       GranCache.Inv pageSize (get_allocation_granularity pageSize s).2.2) ∧
    (s.value ≠ 0 → get_allocation_granularity pageSize s = (s.value, false, s)) ∧
    (s.value = 0 →
       get_allocation_granularity pageSize s = (pageSize, true, ⟨pageSize⟩)) ∧
    (GranCache.Inv pageSize s →
       (get_allocation_granularity pageSize s).1 = pageSize ∧
       (get_allocation_granularity pageSize s).1 ≠ 0) ∧
    (∀ observed, (observed = 0 ∨ observed = pageSize) → GranCache.Inv pageSize s →
       (racer_finish pageSize observed s).1 = pageSize ∧
       GranCache.Inv pageSize (racer_finish pageSize observed s).2) := by
  refine ⟨?_, ?_, ?_, ?_, ?_⟩
  · intro hi
    unfold get_allocation_granularity
    by_cases h : s.value = 0
    · simp [h, GranCache.Inv]
    · simpa [h, GranCache.Inv] using hi
  · intro h
    simp [get_allocation_granularity, h]
  · intro h
    simp [get_allocation_granularity, h]
  · intro hi
    unfold get_allocation_granularity
    by_cases h : s.value = 0
    · simp [h, hp]
    · rcases hi with h0 | hv
      · exact absurd h0 h
      · simp [h, hv, hp]
  · intro observed hobs hi
    unfold racer_finish
    rcases hobs with h0 | hps
    · simp [h0, GranCache.Inv]
    · subst hps
      simpa [hp, GranCache.Inv] using hi

/-- A cold-cache witness instance for the granularity cache. -/
theorem granularity_cache_correct_witness :
    get_allocation_granularity 4096 ⟨0⟩ = (4096, true, ⟨4096⟩) ∧
    (racer_finish 4096 0 ⟨0⟩).1 = 4096 := by
  have h := granularity_cache_correct 4096 ⟨0⟩ (by decide)
  exact ⟨h.2.2.1 rfl, (h.2.2.2.2 0 (Or.inl rfl) (Or.inl rfl)).1⟩

theorem readonly_new_ok_adj_le {os : MmapOs} {fd : Int} {offset len : Nat}
    {m : ReadOnlyMmap} {tr : List Event}
    (h : ReadOnlyMmap.new os fd offset len = (Except.ok m, tr)) :
    m.offset_adjustment ≤ m.length := by
  unfold ReadOnlyMmap.new at h
  rcases hc : mmap_unix_common.create_mmap os fd offset len PROT_READ with ⟨r, tr2⟩
  rw [hc] at h
  cases r with
  | error e => simp at h
  | ok v =>
      obtain ⟨ptr, adj, length⟩ := v
      simp at h
      obtain ⟨hm, -⟩ := h
      have hle := create_mmap_ok_adj_le hc
      rw [← hm]
      exact hle

theorem readwrite_new_ok_adj_le {os : MmapOs} {fd : Int} {offset len : Nat}
    {m : ReadWriteMmap} {tr : List Event}
    (h : ReadWriteMmap.new os fd offset len = (Except.ok m, tr)) :
    m.offset_adjustment ≤ m.length := by
  unfold ReadWriteMmap.new at h
  rcases hc : mmap_unix_common.create_mmap os fd offset len (PROT_READ ||| PROT_WRITE)
    with ⟨r, tr2⟩
  rw [hc] at h
  cases r with
  | error e => simp at h
  | ok v =>
      obtain ⟨ptr, adj, length⟩ := v
      simp at h
      obtain ⟨hm, -⟩ := h
      have hle := create_mmap_ok_adj_le hc
      rw [← hm]
      exact hle

/-- C10: every mapping returned by a constructor (read-only or read-write,
with or without the trimming feature) satisfies
`offset_adjustment ≤ length`, so the subtraction in `len()` cannot
underflow. -/
theorem mapping_adjustment_le_length :
    (∀ (os : MmapOs) (fd : Int) (offset len : Nat) (m : ReadOnlyMmap)
        (tr : List Event),
        ReadOnlyMmap.new os fd offset len = (Except.ok m, tr) →
        m.offset_adjustment ≤ m.length) ∧
    (∀ (os : MmapOs) (fd : Int) (offset len : Nat) (m : ReadWriteMmap)
        (tr : List Event),
        ReadWriteMmap.new os fd offset len = (Except.ok m, tr) →
        m.offset_adjustment ≤ m.length) ∧
    (∀ (os : MmapOs) (fs : Except HandleOpenError Int) (fd : Int)
        (offset len : Nat) (m : ReadOnlyMmap) (tr : List Event),
        ReadOnlyMmap.new_trimmed os fs fd offset len = (Except.ok m, tr) →
        m.offset_adjustment ≤ m.length) ∧
    (∀ (os : MmapOs) (fs : Except HandleOpenError Int) (fd : Int)
        (offset len : Nat) (m : ReadWriteMmap) (tr : List Event),
        ReadWriteMmap.new_trimmed os fs fd offset len = (Except.ok m, tr) →
        m.offset_adjustment ≤ m.length) := by
  refine ⟨fun os fd offset len m tr h => readonly_new_ok_adj_le h,
    fun os fd offset len m tr h => readwrite_new_ok_adj_le h, ?_, ?_⟩
  · intro os fs fd offset len m tr h
    unfold ReadOnlyMmap.new_trimmed at h
    cases ha : adjust_len_to_file_size fs offset len with
    | error e => rw [ha] at h; simp at h
    | ok len2 => rw [ha] at h; exact readonly_new_ok_adj_le h
  · intro os fs fd offset len m tr h
    unfold ReadWriteMmap.new_trimmed at h
    cases ha : adjust_len_to_file_size fs offset len with
    | error e => rw [ha] at h; simp at h
    | ok len2 => rw [ha] at h; exact readwrite_new_ok_adj_le h

/-- Adjustment-bounded-by-length instance at a concrete mapping. -/
theorem mapping_adjustment_le_length_witness :
    (ReadOnlyMmap.mk 65536 3 1003).offset_adjustment ≤
      (ReadOnlyMmap.mk 65536 3 1003).length :=
  mapping_adjustment_le_length.1 osUnit 3 4099 1000 ⟨65536, 3, 1003⟩
    [Event.mmapCall 3 4096 1003 PROT_READ] (by decide)

/-- C2 (code bug in the zero-length pointer): a zero-length request returns
without any native call, with zero adjustment and zero length, `is_empty`
true — but on Unix the data pointer is `NonNull::dangling()` (address 1),
not the null sentinel asserted by the claim and by the crate's own test
`empty_mapping_returns_null`. -/
theorem empty_mapping_unix_data_not_null :
    mmap_unix_common.create_mmap osUnit 3 0 0 PROT_READ
      = (Except.ok (danglingPtr, 0, 0), []) ∧
    ReadOnlyMmap.new osUnit 3 0 0 = (Except.ok ⟨danglingPtr, 0, 0⟩, []) ∧
    ReadOnlyMmap.len ⟨danglingPtr, 0, 0⟩ = 0 ∧
    ReadOnlyMmap.is_empty ⟨danglingPtr, 0, 0⟩ = true ∧
    ReadOnlyMmap.data ⟨danglingPtr, 0, 0⟩ ≠ nullPtr := by decide

/-- C1: for a positive-length request, the constructor computes
`aligned_offset = offset & !(granularity - 1)` and
`offset_adjustment = offset - aligned_offset` (equal to
`offset mod granularity`, hence in `[0, granularity)`), issues the mapping
syscall at `(aligned_offset, len + offset_adjustment)`, and the resulting
mapping's public `len()` is the requested `len` (stored adjusted length
minus the adjustment) and its public data pointer is the native base
advanced by the adjustment. -/
theorem readonly_mmap_alignment (os : MmapOs) (fd : Int)
    (offset len k base : Nat)
    (hg : os.granularity = 2 ^ k) (hk : k ≤ 64) (hoff : offset < 2 ^ 64)
    (hlen : 0 < len)
    (hmap : os.mmapResult (aligned_offset offset os.granularity)
        (len + offset_adjustment offset os.granularity) = some base) :
    offset_adjustment offset os.granularity = offset % 2 ^ k ∧
    offset_adjustment offset os.granularity < os.granularity ∧
    ReadOnlyMmap.new os fd offset len =
      (Except.ok ⟨base, offset_adjustment offset os.granularity,
          len + offset_adjustment offset os.granularity⟩,
       [Event.mmapCall fd (aligned_offset offset os.granularity)
          (len + offset_adjustment offset os.granularity) PROT_READ]) ∧
    ReadOnlyMmap.len ⟨base, offset_adjustment offset os.granularity,
        len + offset_adjustment offset os.granularity⟩ = len ∧
    ReadOnlyMmap.data ⟨base, offset_adjustment offset os.granularity,
        len + offset_adjustment offset os.granularity⟩
      = base + offset_adjustment offset os.granularity := by
  have hadj : offset_adjustment offset os.granularity = offset % 2 ^ k := by
    rw [hg]
    exact offset_adjustment_eq_mod hoff hk
  refine ⟨hadj, ?_, ?_, ?_, rfl⟩
  · rw [hadj, hg]
    exact Nat.mod_lt _ (Nat.pos_pow_of_pos _ (by norm_num))
  · have hlz : ¬ len = 0 := by omega
    unfold ReadOnlyMmap.new mmap_unix_common.create_mmap
    simp [hlz, hmap]
  · simp [ReadOnlyMmap.len]

/-- Alignment behaviour at offset 4099, length 1000, granularity 4096. -/
theorem readonly_mmap_alignment_witness :
    offset_adjustment 4099 osUnit.granularity = 4099 % 2 ^ 12 ∧
    offset_adjustment 4099 osUnit.granularity < osUnit.granularity ∧
    ReadOnlyMmap.new osUnit 3 4099 1000 =
      (Except.ok ⟨65536, offset_adjustment 4099 osUnit.granularity,
          1000 + offset_adjustment 4099 osUnit.granularity⟩,
       [Event.mmapCall 3 (aligned_offset 4099 osUnit.granularity)
          (1000 + offset_adjustment 4099 osUnit.granularity) PROT_READ]) ∧
    ReadOnlyMmap.len ⟨65536, offset_adjustment 4099 osUnit.granularity,
        1000 + offset_adjustment 4099 osUnit.granularity⟩ = 1000 ∧
    ReadOnlyMmap.data ⟨65536, offset_adjustment 4099 osUnit.granularity,
        1000 + offset_adjustment 4099 osUnit.granularity⟩
      = 65536 + offset_adjustment 4099 osUnit.granularity :=
  readonly_mmap_alignment osUnit 3 4099 1000 12 65536 rfl (by norm_num)
    (by norm_num) (by norm_num) rfl

/-- C3: under the trim-to-file-size policy, a failing size query surfaces as
the `FailedToGetFileSize` mapping error; an offset at or past the file size
forces the zero-length degenerate mapping; otherwise the effective mapped
length is `min(len, file_size - offset)`. -/
theorem trim_policy_correct (os : MmapOs) (fd : Int) (offset len base : Nat)
    (fs : Int) (hfs0 : 0 ≤ fs) (hfs1 : fs < 2 ^ 63) :
    (∀ e : HandleOpenError,
        ReadOnlyMmap.new_trimmed os (Except.error e) fd offset len
          = (Except.error MmapError.FailedToGetFileSize, [])) ∧
    (offset ≥ fs.toNat →
        ReadOnlyMmap.new_trimmed os (Except.ok fs) fd offset len
          = (Except.ok ⟨danglingPtr, 0, 0⟩, [])) ∧
    (offset < fs.toNat → 0 < len →
        os.mmapResult (aligned_offset offset os.granularity)
            (min (fs.toNat - offset) len + offset_adjustment offset os.granularity)
          = some base →
        ReadOnlyMmap.new_trimmed os (Except.ok fs) fd offset len
          = (Except.ok ⟨base, offset_adjustment offset os.granularity,
                min (fs.toNat - offset) len
                  + offset_adjustment offset os.granularity⟩,
             [Event.mmapCall fd (aligned_offset offset os.granularity)
                (min (fs.toNat - offset) len
                  + offset_adjustment offset os.granularity) PROT_READ]) ∧
        ReadOnlyMmap.len ⟨base, offset_adjustment offset os.granularity,
            min (fs.toNat - offset) len
              + offset_adjustment offset os.granularity⟩
          = min len (fs.toNat - offset)) := by
  have hemod : fs % (2 ^ 64 : Int) = fs := Int.emod_eq_of_lt hfs0 (by omega)
  refine ⟨?_, ?_, ?_⟩
  · intro e
    simp [ReadOnlyMmap.new_trimmed, adjust_len_to_file_size]
  · intro hge
    unfold ReadOnlyMmap.new_trimmed adjust_len_to_file_size
    simp only [hemod]
    simp [hge, ReadOnlyMmap.new, mmap_unix_common.create_mmap]
  · intro hlt hlen hmap
    have hne0 : ¬ (min (fs.toNat - offset) len = 0) := by omega
    have hnge : ¬ offset ≥ fs.toNat := by omega
    unfold ReadOnlyMmap.new_trimmed adjust_len_to_file_size
    simp only [hemod]
    rw [if_neg hnge]
    constructor
    · unfold ReadOnlyMmap.new mmap_unix_common.create_mmap
      simp [hne0, hmap]
    · simp [ReadOnlyMmap.len]
      omega

/-- Trim-policy behaviour at a 13-byte file, offset 11, requested length
10 (effective length 2), and at a failing size query. -/
theorem trim_policy_correct_witness :
    ReadOnlyMmap.new_trimmed osUnit
        (Except.error (HandleOpenError.FailedToGetFileSize 7)) 3 11 10
      = (Except.error MmapError.FailedToGetFileSize, []) ∧
    ReadOnlyMmap.new_trimmed osUnit (Except.ok 13) 3 11 10
      = (Except.ok ⟨65536, offset_adjustment 11 osUnit.granularity,
            min ((13 : Int).toNat - 11) 10
              + offset_adjustment 11 osUnit.granularity⟩,
         [Event.mmapCall 3 (aligned_offset 11 osUnit.granularity)
            (min ((13 : Int).toNat - 11) 10
              + offset_adjustment 11 osUnit.granularity) PROT_READ]) := by
  have h := trim_policy_correct osUnit 3 11 10 65536 13 (by norm_num) (by norm_num)
  exact ⟨h.1 _, (h.2.2 (by norm_num) (by norm_num) rfl).1⟩

theorem grownFile_spec (os : FileOs) (file : List Nat) (n : Nat)
    (h : file.length ≤ n) :
    (grownFile os file n).length = n ∧
    (grownFile os file n).take (min file.length n)
      = file.take (min file.length n) := by
  unfold grownFile
  constructor
  · simp only [List.length_append, List.length_map, List.length_range]
    omega
  · have hmin : min file.length n = file.length := by omega
    rw [hmin, List.take_left, List.take_length]

theorem set_file_size_ok_spec {p : UnixPlatform} {os : FileOs} {fd size : Int}
    {s s2 : FsState} {tr : List Event}
    (hsize : 0 ≤ size)
    (h : handles_unix_common.set_file_size p os fd size s
        = (Except.ok (), s2, tr)) :
    s2.file.length = size.toNat ∧
    s2.file.take (min s.file.length size.toNat)
      = s.file.take (min s.file.length size.toNat) := by
  by_cases hstat : os.statOk
  case neg =>
    have hev : handles_unix_common.set_file_size p os fd size s
        = (Except.error (HandleOpenError.FailedToGetFileSize os.statErrno), s,
           [Event.fstatCall fd]) := by
      unfold handles_unix_common.set_file_size handles_unix_common.get_file_size
      simp [hstat]
    rw [hev] at h
    simp at h
  case pos =>
    by_cases hgt : size > (s.file.length : Int)
    · have hlen : s.file.length ≤ size.toNat := by omega
      have hgrow := grownFile_spec os s.file size.toNat hlen
      have hgoal : (FsState.mk (grownFile os s.file size.toNat)) = s2 →
          s2.file.length = size.toNat ∧
          s2.file.take (min s.file.length size.toNat)
            = s.file.take (min s.file.length size.toNat) := by
        intro h2
        rw [← h2]
        exact hgrow
      cases p with
      | linux =>
          by_cases hf : os.fallocOk
          · have hev : handles_unix_common.set_file_size UnixPlatform.linux os fd size s
                = (Except.ok (), ⟨grownFile os s.file size.toNat⟩,
                   [Event.fstatCall fd, Event.fallocateCall fd size]) := by
              unfold handles_unix_common.set_file_size
                handles_unix_common.get_file_size
              simp [hstat, hgt, hf]
            rw [hev] at h
            exact hgoal (congrArg (fun t => t.2.1) h)
          · have hev : handles_unix_common.set_file_size UnixPlatform.linux os fd size s
                = (Except.error (HandleOpenError.FailedToSetFileSize os.fallocErrno), s,
                   [Event.fstatCall fd, Event.fallocateCall fd size]) := by
              unfold handles_unix_common.set_file_size
                handles_unix_common.get_file_size
              simp [hstat, hgt, hf]
            rw [hev] at h
            simp at h
      | freebsdDragonfly =>
          by_cases hf : os.fallocOk
          · have hev : handles_unix_common.set_file_size UnixPlatform.freebsdDragonfly os fd size s
                = (Except.ok (), ⟨grownFile os s.file size.toNat⟩,
                   [Event.fstatCall fd, Event.fallocateCall fd size]) := by
              unfold handles_unix_common.set_file_size
                handles_unix_common.get_file_size
              simp [hstat, hgt, hf]
            rw [hev] at h
            exact hgoal (congrArg (fun t => t.2.1) h)
          · have hev : handles_unix_common.set_file_size UnixPlatform.freebsdDragonfly os fd size s
                = (Except.error (HandleOpenError.FailedToSetFileSize os.fallocErrno), s,
                   [Event.fstatCall fd, Event.fallocateCall fd size]) := by
              unfold handles_unix_common.set_file_size
                handles_unix_common.get_file_size
              simp [hstat, hgt, hf]
            rw [hev] at h
            simp at h
      | otherUnix =>
          by_cases hf : os.ftruncOk
          · have hev : handles_unix_common.set_file_size UnixPlatform.otherUnix os fd size s
                = (Except.ok (), ⟨grownFile os s.file size.toNat⟩,
                   [Event.fstatCall fd, Event.ftruncateCall fd size]) := by
              unfold handles_unix_common.set_file_size
                handles_unix_common.get_file_size
              simp [hstat, hgt, hf]
            rw [hev] at h
            exact hgoal (congrArg (fun t => t.2.1) h)
          · have hev : handles_unix_common.set_file_size UnixPlatform.otherUnix os fd size s
                = (Except.error (HandleOpenError.FailedToSetFileSize os.ftruncErrno), s,
                   [Event.fstatCall fd, Event.ftruncateCall fd size]) := by
              unfold handles_unix_common.set_file_size
                handles_unix_common.get_file_size
              simp [hstat, hgt, hf]
            rw [hev] at h
            simp at h
    · by_cases hlt : size < (s.file.length : Int)
      · by_cases hf : os.ftruncOk
        · have hev : handles_unix_common.set_file_size p os fd size s
              = (Except.ok (), ⟨s.file.take size.toNat⟩,
                 [Event.fstatCall fd, Event.ftruncateCall fd size]) := by
            unfold handles_unix_common.set_file_size
              handles_unix_common.get_file_size
            simp [hstat, hgt, hlt, hf]
          rw [hev] at h
          have h2 : FsState.mk (List.take size.toNat s.file) = s2 :=
            congrArg (fun t => t.2.1) h
          rw [← h2]
          have hmin : min s.file.length size.toNat = size.toNat := by omega
          refine ⟨?_, ?_⟩
          · simp only [List.length_take]
            omega
          · rw [hmin]
            show (s.file.take size.toNat).take size.toNat = _
            rw [List.take_take]
            simp
        · have hev : handles_unix_common.set_file_size p os fd size s
              = (Except.error (HandleOpenError.FailedToSetFileSize os.ftruncErrno), s,
                 [Event.fstatCall fd, Event.ftruncateCall fd size]) := by
            unfold handles_unix_common.set_file_size
              handles_unix_common.get_file_size
            simp [hstat, hgt, hlt, hf]
          rw [hev] at h
          simp at h
      · have hev : handles_unix_common.set_file_size p os fd size s
            = (Except.ok (), s, [Event.fstatCall fd]) := by
          unfold handles_unix_common.set_file_size
            handles_unix_common.get_file_size
          simp [hstat, hgt, hlt]
        rw [hev] at h
        have h2 : s = s2 := congrArg (fun t => t.2.1) h
        rw [← h2]
        exact ⟨by omega, rfl⟩

/-- C4: a successful `create_preallocated` leaves the file with exactly
`size` bytes, preserving the first `min(old_size, size)` bytes (growth keeps
the old prefix, shrink keeps exactly the first `size` bytes); on platforms
without a space-reserving primitive the grow path needs only `ftruncate`,
so growth never fails merely because that primitive is unsupported. -/
theorem create_preallocated_exact_size (p : UnixPlatform) (os : FileOs)
    (size : Int) (s : FsState) (fd : Int)
    (hsize : 0 ≤ size)
    (hok : (InnerHandle.create_preallocated p os size s).1 = Except.ok fd) :
    (InnerHandle.create_preallocated p os size s).2.1.file.length
      = size.toNat ∧
    (InnerHandle.create_preallocated p os size s).2.1.file.take
        (min s.file.length size.toNat)
      = s.file.take (min s.file.length size.toNat) ∧
    ((s.file.length : Int) < size → os.statOk = true → os.ftruncOk = true →
      (handles_unix_common.set_file_size UnixPlatform.otherUnix os fd size s).1
        = Except.ok ()) := by
  have hmain : (InnerHandle.create_preallocated p os size s).2.1.file.length
      = size.toNat ∧
      (InnerHandle.create_preallocated p os size s).2.1.file.take
          (min s.file.length size.toNat)
        = s.file.take (min s.file.length size.toNat) := by
    cases hopen : os.openResult with
    | error code =>
        have hev : InnerHandle.create_preallocated p os size s
            = (Except.error (HandleOpenError.FailedToOpenFileHandle code), s, []) := by
          unfold InnerHandle.create_preallocated
          simp [hopen]
        rw [hev] at hok
        simp at hok
    | ok fd2 =>
        rcases hset : handles_unix_common.set_file_size p os fd2 size s
          with ⟨r, s2, tr⟩
        cases r with
        | error e =>
            have hev : InnerHandle.create_preallocated p os size s
                = (Except.error e, s2,
                   Event.openCall fd2 :: tr ++ [Event.closeCall fd2]) := by
              unfold InnerHandle.create_preallocated
              simp [hopen, hset]
            rw [hev] at hok
            simp at hok
        | ok u =>
            obtain ⟨⟩ := u
            have hev : InnerHandle.create_preallocated p os size s
                = (Except.ok fd2, s2, Event.openCall fd2 :: tr) := by
              unfold InnerHandle.create_preallocated
              simp [hopen, hset]
            rw [hev]
            exact set_file_size_ok_spec hsize hset
  refine ⟨hmain.1, hmain.2, ?_⟩
  intro hlt hstat hftr
  have hgt : size > (s.file.length : Int) := by omega
  have hev : handles_unix_common.set_file_size UnixPlatform.otherUnix os fd size s
      = (Except.ok (), ⟨grownFile os s.file size.toNat⟩,
         [Event.fstatCall fd, Event.ftruncateCall fd size]) := by
    unfold handles_unix_common.set_file_size handles_unix_common.get_file_size
    simp [hstat, hgt, hftr]
  rw [hev]

/-- An all-success file oracle: descriptor 3, every syscall succeeding,
grow padding bytes all zero. -/
def osFile : FileOs := ⟨Except.ok 3, true, 0, true, 0, true, 0, fun _ => 0⟩

/-- File state holding the five bytes of "Hello". -/
def helloState : FsState := ⟨[72, 101, 108, 108, 111]⟩

/-- Preallocation growing a 5-byte file to exactly 10 bytes, keeping the
old prefix. -/
theorem create_preallocated_exact_size_witness :
    (InnerHandle.create_preallocated UnixPlatform.linux osFile 10
        helloState).2.1.file.length = (10 : Int).toNat ∧
    (InnerHandle.create_preallocated UnixPlatform.linux osFile 10
        helloState).2.1.file.take (min helloState.file.length (10 : Int).toNat)
      = helloState.file.take (min helloState.file.length (10 : Int).toNat) := by
  have h := create_preallocated_exact_size UnixPlatform.linux osFile 10
    helloState 3 (by norm_num) (by decide)
  exact ⟨h.1, h.2.1⟩

theorem set_file_size_error_kind {p : UnixPlatform} {os : FileOs}
    {fd size : Int} {s s2 : FsState} {e : HandleOpenError} {tr : List Event}
    (hstat : os.statOk = true)
    (h : handles_unix_common.set_file_size p os fd size s
        = (Except.error e, s2, tr)) :
    ∃ code, e = HandleOpenError.FailedToSetFileSize code := by
  by_cases hgt : size > (s.file.length : Int)
  · cases p with
    | linux =>
        by_cases hf : os.fallocOk
        · have hev : handles_unix_common.set_file_size UnixPlatform.linux os fd size s
              = (Except.ok (), ⟨grownFile os s.file size.toNat⟩,
                 [Event.fstatCall fd, Event.fallocateCall fd size]) := by
            unfold handles_unix_common.set_file_size
              handles_unix_common.get_file_size
            simp [hstat, hgt, hf]
          rw [hev] at h
          simp at h
        · have hev : handles_unix_common.set_file_size UnixPlatform.linux os fd size s
              = (Except.error (HandleOpenError.FailedToSetFileSize os.fallocErrno),
                 s, [Event.fstatCall fd, Event.fallocateCall fd size]) := by
            unfold handles_unix_common.set_file_size
              handles_unix_common.get_file_size
            simp [hstat, hgt, hf]
          rw [hev] at h
          have h1 : (Except.error (HandleOpenError.FailedToSetFileSize os.fallocErrno)
              : Except HandleOpenError Unit) = Except.error e :=
            congrArg (fun t => t.1) h
          injection h1 with h2
          exact ⟨os.fallocErrno, h2.symm⟩
    | freebsdDragonfly =>
        by_cases hf : os.fallocOk
        · have hev : handles_unix_common.set_file_size UnixPlatform.freebsdDragonfly os fd size s
              = (Except.ok (), ⟨grownFile os s.file size.toNat⟩,
                 [Event.fstatCall fd, Event.fallocateCall fd size]) := by
            unfold handles_unix_common.set_file_size
              handles_unix_common.get_file_size
            simp [hstat, hgt, hf]
          rw [hev] at h
          simp at h
        · have hev : handles_unix_common.set_file_size UnixPlatform.freebsdDragonfly os fd size s
              = (Except.error (HandleOpenError.FailedToSetFileSize os.fallocErrno),
                 s, [Event.fstatCall fd, Event.fallocateCall fd size]) := by
            unfold handles_unix_common.set_file_size
              handles_unix_common.get_file_size
            simp [hstat, hgt, hf]
          rw [hev] at h
          have h1 : (Except.error (HandleOpenError.FailedToSetFileSize os.fallocErrno)
              : Except HandleOpenError Unit) = Except.error e :=
            congrArg (fun t => t.1) h
          injection h1 with h2
          exact ⟨os.fallocErrno, h2.symm⟩
    | otherUnix =>
        by_cases hf : os.ftruncOk
        · have hev : handles_unix_common.set_file_size UnixPlatform.otherUnix os fd size s
              = (Except.ok (), ⟨grownFile os s.file size.toNat⟩,
                 [Event.fstatCall fd, Event.ftruncateCall fd size]) := by
            unfold handles_unix_common.set_file_size
              handles_unix_common.get_file_size
            simp [hstat, hgt, hf]
          rw [hev] at h
          simp at h
        · have hev : handles_unix_common.set_file_size UnixPlatform.otherUnix os fd size s
              = (Except.error (HandleOpenError.FailedToSetFileSize os.ftruncErrno),
                 s, [Event.fstatCall fd, Event.ftruncateCall fd size]) := by
            unfold handles_unix_common.set_file_size
              handles_unix_common.get_file_size
            simp [hstat, hgt, hf]
          rw [hev] at h
          have h1 : (Except.error (HandleOpenError.FailedToSetFileSize os.ftruncErrno)
              : Except HandleOpenError Unit) = Except.error e :=
            congrArg (fun t => t.1) h
          injection h1 with h2
          exact ⟨os.ftruncErrno, h2.symm⟩
  · by_cases hlt : size < (s.file.length : Int)
    · by_cases hf : os.ftruncOk
      · have hev : handles_unix_common.set_file_size p os fd size s
            = (Except.ok (), ⟨s.file.take size.toNat⟩,
               [Event.fstatCall fd, Event.ftruncateCall fd size]) := by
          unfold handles_unix_common.set_file_size
            handles_unix_common.get_file_size
          simp [hstat, hgt, hlt, hf]
        rw [hev] at h
        simp at h
      · have hev : handles_unix_common.set_file_size p os fd size s
            = (Except.error (HandleOpenError.FailedToSetFileSize os.ftruncErrno),
               s, [Event.fstatCall fd, Event.ftruncateCall fd size]) := by
          unfold handles_unix_common.set_file_size
            handles_unix_common.get_file_size
          simp [hstat, hgt, hlt, hf]
        rw [hev] at h
        have h1 : (Except.error (HandleOpenError.FailedToSetFileSize os.ftruncErrno)
            : Except HandleOpenError Unit) = Except.error e :=
          congrArg (fun t => t.1) h
        injection h1 with h2
        exact ⟨os.ftruncErrno, h2.symm⟩
    · have hev : handles_unix_common.set_file_size p os fd size s
          = (Except.ok (), s, [Event.fstatCall fd]) := by
        unfold handles_unix_common.set_file_size
          handles_unix_common.get_file_size
        simp [hstat, hgt, hlt]
      rw [hev] at h
      simp at h

/-- C5 (amended): when `create_preallocated` opens the descriptor but the
resize step fails, it returns that step's error — the `FailedToSetFileSize`
variant whenever the preliminary size query inside the resize step
succeeded — and the opened descriptor is closed (the trace's last native
call) before the error is returned; when the open itself fails, no
descriptor was acquired, so no failure path leaks one. -/
theorem create_preallocated_failure_closes_descriptor (p : UnixPlatform)
    (os : FileOs) (size : Int) (s : FsState) :
    (∀ fd e s2 tr, os.openResult = Except.ok fd →
       handles_unix_common.set_file_size p os fd size s
         = (Except.error e, s2, tr) →
       InnerHandle.create_preallocated p os size s
         = (Except.error e, s2, Event.openCall fd :: tr ++ [Event.closeCall fd]) ∧
       (Event.openCall fd :: tr ++ [Event.closeCall fd]).getLast?
         = some (Event.closeCall fd) ∧
       (os.statOk = true →
         ∃ code, e = HandleOpenError.FailedToSetFileSize code)) ∧
    (∀ code, os.openResult = Except.error code →
       InnerHandle.create_preallocated p os size s
         = (Except.error (HandleOpenError.FailedToOpenFileHandle code), s, [])) := by
  constructor
  · intro fd e s2 tr hopen hset
    refine ⟨?_, ?_, fun hstat => set_file_size_error_kind hstat hset⟩
    · unfold InnerHandle.create_preallocated
      simp [hopen, hset]
    · exact List.getLast?_concat _
  · intro code hopen
    unfold InnerHandle.create_preallocated
    simp [hopen]

/-- A file oracle whose `fstat` fails with errno 5. -/
def osStatFail : FileOs := ⟨Except.ok 3, false, 5, true, 0, true, 0, fun _ => 0⟩

/-- A file oracle whose space-reserving allocation fails with errno 28. -/
def osFallocFail : FileOs := ⟨Except.ok 3, true, 0, false, 28, true, 0, fun _ => 0⟩

/-- C5 counterexample: the descriptor opens, the resize step fails in its
preliminary `fstat`, and `create_preallocated` returns `FailedToGetFileSize`
rather than the `FailedToSetFileSize` error the claim demands (the
descriptor is still closed before returning). -/
theorem create_preallocated_statfail_counterexample :
    InnerHandle.create_preallocated UnixPlatform.linux osStatFail 10 ⟨[]⟩
      = (Except.error (HandleOpenError.FailedToGetFileSize 5), ⟨[]⟩,
         [Event.openCall 3, Event.fstatCall 3, Event.closeCall 3]) ∧
    HandleOpenError.isSetSizeError (HandleOpenError.FailedToGetFileSize 5)
      = false := by decide

/-- Resize failure (fallocate ENOSPC) returns `FailedToSetFileSize` and
closes the descriptor last. -/
theorem create_preallocated_failure_closes_descriptor_witness :
    InnerHandle.create_preallocated UnixPlatform.linux osFallocFail 10 ⟨[]⟩
      = (Except.error (HandleOpenError.FailedToSetFileSize 28), ⟨[]⟩,
         Event.openCall 3 :: [Event.fstatCall 3, Event.fallocateCall 3 10]
           ++ [Event.closeCall 3]) ∧
    (Event.openCall 3 :: [Event.fstatCall 3, Event.fallocateCall 3 10]
        ++ [Event.closeCall 3]).getLast? = some (Event.closeCall 3) := by
  have h := (create_preallocated_failure_closes_descriptor UnixPlatform.linux
      osFallocFail 10 ⟨[]⟩).1 3 (HandleOpenError.FailedToSetFileSize 28) ⟨[]⟩
      [Event.fstatCall 3, Event.fallocateCall 3 10] rfl (by decide)
  exact ⟨h.1, h.2.1⟩

/-- C6 (code bug): Rust drops struct fields in declaration order and
`OwnedReadOnlyMmap` declares `handle` before `mmap`, so dropping the last
owner closes the descriptor before the view is unmapped, violating the
claimed mapping-before-handle release ordering; the borrowed pairing and
the shared-count owned case do release the mapping first. -/
theorem owned_mmap_drop_order_bug :
    OwnedReadOnlyMmap.drop ⟨1, 3, ⟨65536, 3, 1003⟩⟩
      = [Event.closeCall 3, Event.munmapCall 65536 1003] ∧
    borrowedDropSequence ⟨65536, 3, 1003⟩ 3
      = [Event.munmapCall 65536 1003, Event.closeCall 3] ∧
    OwnedReadOnlyMmap.drop ⟨2, 3, ⟨65536, 3, 1003⟩⟩
      = [Event.munmapCall 65536 1003] := by decide

/-- A Windows oracle: granularity 4096, mapping object handle 7, every view
call succeeding at base 65536, last error 5. -/
def osWin : WinOs := ⟨4096, some 7, fun _ _ => some 65536, 5⟩

/-- C7 counterexample: `create_view` does not close the mapping-object
handle after obtaining the view — the handle (7) is cached in the handle
state and the trace contains no `CloseHandle` call. -/
theorem create_view_keeps_mapping_object :
    mmap_windows_common.create_view osWin INVALID_HANDLE_VALUE 4099 1000
      = (Except.ok (65536, 3, 1003), 7,
         [Event.createFileMappingWCall 0 0, Event.mapViewOfFileCall 4096 1003]) ∧
    closesHandle
      (mmap_windows_common.create_view osWin INVALID_HANDLE_VALUE 4099 1000).2.2 7
      = false := by decide

/-- C7 (amended): for a non-zero length the two-step protocol holds — a
file-mapping object covering the whole file (max-size arguments 0,0) is
created lazily on the first view and a view is mapped at the aligned
offset — but the mapping-object handle is not closed after the view is
obtained: it is cached in the handle, reused by later views without a new
`CreateFileMappingW`, and closed only when the handle is dropped. -/
theorem create_view_lazy_mapping_protocol (os : WinOs) (offset len : Nat)
    (m handle : Int) (base : Nat)
    (hlen : 0 < len)
    (hcm : os.createMappingResult = some m)
    (hmv : os.mapViewResult (aligned_offset offset os.granularity)
        (len + offset_adjustment offset os.granularity) = some base)
    (hm : m ≠ INVALID_HANDLE_VALUE)
    (hh : handle ≠ INVALID_HANDLE_VALUE) :
    mmap_windows_common.create_view os INVALID_HANDLE_VALUE offset len
      = (Except.ok (base, offset_adjustment offset os.granularity,
            len + offset_adjustment offset os.granularity), m,
         [Event.createFileMappingWCall 0 0,
          Event.mapViewOfFileCall (aligned_offset offset os.granularity)
            (len + offset_adjustment offset os.granularity)]) ∧
    closesHandle
      [Event.createFileMappingWCall 0 0,
       Event.mapViewOfFileCall (aligned_offset offset os.granularity)
         (len + offset_adjustment offset os.granularity)] m = false ∧
    mmap_windows_common.create_view os m offset len
      = (Except.ok (base, offset_adjustment offset os.granularity,
            len + offset_adjustment offset os.granularity), m,
         [Event.mapViewOfFileCall (aligned_offset offset os.granularity)
            (len + offset_adjustment offset os.granularity)]) ∧
    InnerHandle.drop_windows m handle
      = [Event.closeHandleCall m, Event.closeHandleCall handle] := by
  have hlz : ¬ len = 0 := by omega
  refine ⟨?_, ?_, ?_, ?_⟩
  · unfold mmap_windows_common.create_view
    simp [hlz, hcm, hmv]
  · simp [closesHandle]
  · unfold mmap_windows_common.create_view
    simp [hlz, hm, hmv]
  · unfold InnerHandle.drop_windows
    simp [hm, hh]

/-- Lazy-view protocol at offset 4099, length 1000, mapping object 7. -/
theorem create_view_lazy_mapping_protocol_witness :
    mmap_windows_common.create_view osWin INVALID_HANDLE_VALUE 4099 1000
      = (Except.ok (65536, offset_adjustment 4099 osWin.granularity,
            1000 + offset_adjustment 4099 osWin.granularity), 7,
         [Event.createFileMappingWCall 0 0,
          Event.mapViewOfFileCall (aligned_offset 4099 osWin.granularity)
            (1000 + offset_adjustment 4099 osWin.granularity)]) ∧
    InnerHandle.drop_windows 7 3
      = [Event.closeHandleCall 7, Event.closeHandleCall 3] := by
  have h := create_view_lazy_mapping_protocol osWin 4099 1000 7 3 65536
    (by norm_num) rfl rfl (by decide) (by decide)
  exact ⟨h.1, h.2.2.2⟩

/-- C9: `advise` on an empty mapping issues no hint call; on a non-empty
mapping it issues exactly one hint call per set advice flag, each applied
to the full native region (base pointer and total stored length); on
Windows only WILL_NEED produces a call; hint results are discarded by the
embedding (failures ignored). -/
theorem advise_per_flag (m : ReadOnlyMmap) (advice addr len : Nat) :
    (m.is_empty = true → m.advise advice = []) ∧
    (m.is_empty = false →
      ((m.advise advice).count (Event.madviseCall m.ptr m.length Madv.willneed)
          = if advice &&& 1 = 1 then 1 else 0) ∧
      ((m.advise advice).count (Event.madviseCall m.ptr m.length Madv.sequential)
          = if advice &&& 2 = 2 then 1 else 0) ∧
      ((m.advise advice).count (Event.madviseCall m.ptr m.length Madv.random)
          = if advice &&& 4 = 4 then 1 else 0) ∧
      ((m.advise advice).length
          = (if advice &&& 1 = 1 then 1 else 0)
            + ((if advice &&& 2 = 2 then 1 else 0)
              + (if advice &&& 4 = 4 then 1 else 0)))) ∧
    (mmap_windows_common.advise_memory addr len advice
        = if advice &&& 1 = 1 then [Event.prefetchVirtualMemoryCall addr len]
          else []) := by
  refine ⟨?_, ?_, rfl⟩
  · intro he
    unfold ReadOnlyMmap.advise
    simp [he]
  · intro he
    unfold ReadOnlyMmap.advise
    simp only [he, Bool.not_false, if_true, ite_true]
    unfold mmap_unix_common.advise_memory
    by_cases h1 : advice % 2 = 1 <;> by_cases h2 : advice &&& 2 = 2 <;>
      by_cases h4 : advice &&& 4 = 4 <;>
      simp [h1, h2, h4, Nat.and_one_is_mod, List.count_cons, List.count_append]

/-- Advice flags WILL_NEED|RANDOM (bits 5) on a non-empty mapping. -/
theorem advise_per_flag_witness :
    (ReadOnlyMmap.advise ⟨4096, 3, 1003⟩ 5).count
        (Event.madviseCall 4096 1003 Madv.willneed) = 1 ∧
    (ReadOnlyMmap.advise ⟨4096, 3, 1003⟩ 5).count
        (Event.madviseCall 4096 1003 Madv.sequential) = 0 ∧
    (ReadOnlyMmap.advise ⟨4096, 3, 1003⟩ 5).count
        (Event.madviseCall 4096 1003 Madv.random) = 1 := by
  have h := (advise_per_flag ⟨4096, 3, 1003⟩ 5 8 8).2.1 (by decide)
  exact ⟨h.1.trans (by decide), h.2.1.trans (by decide),
    h.2.2.1.trans (by decide)⟩
